import Mathlib

set_option autoImplicit false

/-!
Verification development for the fastvoice real-time input-to-recording
pipeline.  The Lean definitions below are shallow embeddings of the Python
classes named in the comments; machine time is modelled in integral
milliseconds, audio frames by their voice-activity classification (or by an
identifying number where the content is irrelevant), and every stateful
method becomes a pure function on an explicit state record.
-/

namespace FastVoice

/-! ### VadSegmenter
Embedding of backup_20260106_104607/core/audio/vad_segmenter.py.
A frame is represented by a value of an arbitrary type together with a
classifier cls (the external webrtcvad judgement, including the frame-size
check of the private speech test). -/

/-- Duration of one frame in milliseconds (FRAME_DURATION_MS). -/
def frameDurationMs : Nat := 30

/-- Constructor arguments of VadSegmenter. -/
structure VadConfig where
  sampleRate : Nat
  silenceThresholdMs : Nat
  hangoverTimeMs : Nat
  minSpeechDurationMs : Nat
deriving DecidableEq

/-- Derived field silence_threshold_frames = silence_threshold_ms // FRAME_DURATION_MS. -/
def VadConfig.silenceThresholdFrames (c : VadConfig) : Nat :=
  c.silenceThresholdMs / frameDurationMs

/-- Derived field hangover_frames = hangover_time_ms // FRAME_DURATION_MS. -/
def VadConfig.hangoverFrames (c : VadConfig) : Nat :=
  c.hangoverTimeMs / frameDurationMs

/-- Derived field min_speech_frames = min_speech_duration_ms // FRAME_DURATION_MS. -/
def VadConfig.minSpeechFrames (c : VadConfig) : Nat :=
  c.minSpeechDurationMs / frameDurationMs

/-- Mutable state of a VadSegmenter instance. -/
structure VadState (α : Type) where
  currentSegment : List α
  inSpeech : Bool
  silenceFrames : Nat
  speechFrames : Nat
  totalFrames : Nat
  segmentsCompleted : Nat
deriving DecidableEq

/-- State right after construction (or reset). -/
def VadState.init (α : Type) : VadState α := ⟨[], false, 0, 0, 0, 0⟩

/-- Embedding of the private segment-finalisation method: discard the segment
when it holds fewer speech frames than min_speech_frames, otherwise emit it. -/
def finalizeSegment {α : Type} (c : VadConfig) (s : VadState α) :
    VadState α × Option (List α) :=
  if s.currentSegment.isEmpty then (s, none)
  else if s.speechFrames < c.minSpeechFrames then
    ({ s with currentSegment := [], inSpeech := false,
              silenceFrames := 0, speechFrames := 0 }, none)
  else
    ({ s with currentSegment := [], inSpeech := false,
              silenceFrames := 0, speechFrames := 0,
              segmentsCompleted := s.segmentsCompleted + 1 },
     some s.currentSegment)

/-- Embedding of process_frame: classify the frame with cls, extend the
current segment on speech, buffer silence while in speech, and finalise the
segment once the silence run reaches silence_threshold_frames. -/
def processFrame {α : Type} (c : VadConfig) (cls : α → Bool) (s : VadState α)
    (frame : α) : VadState α × Option (List α) :=
  let s := { s with totalFrames := s.totalFrames + 1 }
  if cls frame then
    let s := if s.inSpeech then s else { s with inSpeech := true, silenceFrames := 0 }
    ({ s with currentSegment := s.currentSegment ++ [frame],
              speechFrames := s.speechFrames + 1 }, none)
  else if s.inSpeech then
    let s := { s with silenceFrames := s.silenceFrames + 1,
                      currentSegment := s.currentSegment ++ [frame] }
    if c.silenceThresholdFrames ≤ s.silenceFrames then finalizeSegment c s
    else (s, none)
  else (s, none)

/-- Feeding a whole frame sequence through process_frame, collecting every
emitted segment in order. -/
def processFrames {α : Type} (c : VadConfig) (cls : α → Bool) :
    VadState α → List α → VadState α × List (List α)
  | s, [] => (s, [])
  | s, f :: fs =>
    let r := processFrame c cls s f
    let rest := processFrames c cls r.1 fs
    (rest.1, r.2.toList ++ rest.2)

/-- Embedding of the public finalize method: force-flush the buffered segment
when it is nonempty and holds at least one speech frame. -/
def vadFinalize {α : Type} (c : VadConfig) (s : VadState α) :
    VadState α × Option (List α) :=
  if ¬ s.currentSegment.isEmpty ∧ 0 < s.speechFrames then finalizeSegment c s
  else (s, none)

/-! ### ASRWorker
Embedding of core/asr_worker.py.  Audio byte strings are lists of naturals.
The segment queue is bounded (queue.Queue with maxsize 100); put_nowait on a
full queue raises, the exception is caught and the item is lost.  Items are
either plain byte strings (push_segment / finalize_session) or byte strings
tagged with the generation current at enqueue time (process_audio); the
worker loop reads plain items as generation 0. -/

/-- Audio byte strings. -/
abbrev Audio : Type := List Nat

/-- Join a list of audio chunks (the b-join of Python). -/
def joinAudio (segs : List Audio) : Audio := segs.foldr (fun a acc => a ++ acc) []

/-- Items of the segment queue. -/
inductive AsrItem where
  | raw (a : Audio)
  | tagged (a : Audio) (g : Nat)
deriving DecidableEq

/-- Capacity of the segment queue (maxsize=100). -/
def queueMaxsize : Nat := 100

/-- Mutable state of an ASRWorker instance. -/
structure WorkerState where
  generation : Nat
  currentSessionSegments : List Audio
  queue : List AsrItem
  totalProcessed : Nat
  totalSegments : Nat
deriving DecidableEq

/-- Worker state right after construction. -/
def WorkerState.init : WorkerState := ⟨0, [], [], 0, 0⟩

/-- Embedding of start_session: increment the generation and clear the
session segment list. -/
def startSession (w : WorkerState) : WorkerState :=
  { w with generation := w.generation + 1, currentSessionSegments := [] }

/-- Embedding of push_segment: join the frames, enqueue the block untag and
record it in the session; a full queue drops the block entirely. -/
def pushSegment (w : WorkerState) (segment : List Audio) : WorkerState :=
  let audioBytes := joinAudio segment
  if w.queue.length < queueMaxsize then
    { w with queue := w.queue ++ [AsrItem.raw audioBytes],
             currentSessionSegments := w.currentSessionSegments ++ [audioBytes],
             totalSegments := w.totalSegments + 1 }
  else w

/-- Embedding of finalize_session: when the session holds segments, join them
all and enqueue the result; the session segment list is not cleared. -/
def finalizeSession (w : WorkerState) : WorkerState :=
  if w.currentSessionSegments.isEmpty then w
  else if w.queue.length < queueMaxsize then
    { w with queue := w.queue ++ [AsrItem.raw (joinAudio w.currentSessionSegments)] }
  else w

/-- Embedding of process_audio: enqueue the block tagged with the current
generation; empty audio is skipped, a full queue drops the block. -/
def processAudio (w : WorkerState) (audioData : Audio) : WorkerState :=
  if (audioData : List Nat).isEmpty then w
  else if w.queue.length < queueMaxsize then
    { w with queue := w.queue ++ [AsrItem.tagged audioData w.generation] }
  else w

/-- How the worker loop unpacks a dequeued item: a 2-tuple carries its
generation, any other item is treated as generation 0. -/
def AsrItem.audioGen : AsrItem → Audio × Nat
  | .raw a => (a, 0)
  | .tagged a g => (a, g)

/-- Embedding of one pass of the worker loop body: dequeue an item (if any),
drop it when its generation differs from the live counter, otherwise hand
the audio to recognition (the returned Option is the audio submitted to the
private recognition step). -/
def workerStep (w : WorkerState) : WorkerState × Option Audio :=
  match w.queue with
  | [] => (w, none)
  | item :: rest =>
    if item.audioGen.2 ≠ w.generation then ({ w with queue := rest }, none)
    else ({ w with queue := rest, totalProcessed := w.totalProcessed + 1 },
          some item.audioGen.1)

/-- External calls into the worker, for reasoning about whole histories. -/
inductive WorkerOp where
  | startSession
  | pushSegment (segment : List Audio)
  | finalizeSession
  | processAudio (audioData : Audio)
  | workerStep
deriving DecidableEq

/-- Interpretation of one external call on the worker state. -/
def applyOp (w : WorkerState) : WorkerOp → WorkerState
  | .startSession => startSession w
  | .pushSegment segment => pushSegment w segment
  | .finalizeSession => finalizeSession w
  | .processAudio audioData => processAudio w audioData
  | .workerStep => (workerStep w).1

/-- Running a history of external calls. -/
def runOps (w : WorkerState) (ops : List WorkerOp) : WorkerState :=
  ops.foldl applyOp w

/-! ### AudioCaptureThread and RecordingController
Embedding of backup_v1.4.0_20260108_173524/audio/capture_thread.py and
recording_controller.py.  Frames are identified by a number (their monotonic
sequence position); the OS audio stream and Python threads are outside the
model, so the capture state is the ring buffer plus a running flag and the
processing loop is modelled one iteration at a time. -/

/-- Mutable state of an AudioCaptureThread: the bounded deque and the flag. -/
structure CaptureState where
  running : Bool
  buffer : List Nat
  framesCaptured : Nat
deriving DecidableEq

/-- Embedding of the audio callback: append one frame to the deque, which
drops its oldest entry when full (deque with maxlen). -/
def audioCallback (maxlen : Nat) (cap : CaptureState) (frame : Nat) : CaptureState :=
  let pushed := cap.buffer ++ [frame]
  { cap with buffer := if maxlen < pushed.length then pushed.drop (pushed.length - maxlen) else pushed,
             framesCaptured := cap.framesCaptured + 1 }

/-- Embedding of get_frames: snapshot the deque as a list and, when a nonzero
bound is given and the snapshot is longer, keep only the newest bound-many
frames.  Nothing is removed from the deque. -/
def getFrames (buffer : List Nat) (maxFrames : Option Nat) : List Nat :=
  match maxFrames with
  | none => buffer
  | some m => if 0 < m ∧ m < buffer.length then buffer.drop (buffer.length - m) else buffer

/-- State touched by one iteration of the processing loop. -/
structure LoopState where
  capture : CaptureState
  vad : VadState Nat
  allFrames : List Nat
  segments : List (List Nat)
deriving DecidableEq

/-- Embedding of the frame for-loop body of the processing loop: record the
frame and feed it to the segmenter, collecting any completed segment. -/
def feedFrames (c : VadConfig) (cls : Nat → Bool) : LoopState → List Nat → LoopState
  | ls, [] => ls
  | ls, f :: fs =>
    let r := processFrame c cls ls.vad f
    feedFrames c cls
      { ls with allFrames := ls.allFrames ++ [f], vad := r.1,
                segments := ls.segments ++ r.2.toList } fs

/-- Embedding of one iteration of the processing loop while recording: pull
up to ten frames from the capture buffer and feed each to the segmenter.
The second component is the frame list handed to the segmenter. -/
def processingIteration (c : VadConfig) (cls : Nat → Bool) (ls : LoopState) :
    LoopState × List Nat :=
  let frames := getFrames ls.capture.buffer (some 10)
  (feedFrames c cls ls frames, frames)

/-- Session states of the RecordingController. -/
inductive RecordingState where
  | idle
  | recording
  | finalizing
deriving DecidableEq

/-- Mutable state of a RecordingController instance. -/
structure ControllerState where
  state : RecordingState
  capture : Option CaptureState
  vad : Option (VadState Nat)
  allFrames : List Nat
  segments : List (List Nat)
  startTime : Option Nat
  stopTime : Option Nat
deriving DecidableEq

/-- Embedding of RecordingController.start at time t: when the state is not
Idle, log and return whether the state equals Recording, touching nothing;
otherwise create fresh components, reset the collected data, start capture
(success is the external captureStartOk input), and on success move to
Recording.  The spawned threads live outside the state. -/
def controllerStart (c : ControllerState) (t : Nat) (captureStartOk : Bool) :
    Bool × ControllerState :=
  if c.state ≠ RecordingState.idle then (c.state == RecordingState.recording, c)
  else
    let c := { c with capture := some ⟨true, [], 0⟩, vad := some (VadState.init Nat),
                      allFrames := [], segments := [], startTime := some t,
                      stopTime := none }
    if ¬ captureStartOk then (false, { c with capture := some ⟨false, [], 0⟩ })
    else (true, { c with state := RecordingState.recording })

/-- Embedding of RecordingController.stop at time t: only a Recording state
moves to Finalizing and records the stop time. -/
def controllerStop (c : ControllerState) (t : Nat) : ControllerState :=
  if c.state ≠ RecordingState.recording then c
  else { c with state := RecordingState.finalizing, stopTime := some t }

/-- Embedding of RecordingController.reset: stop and drop the capture thread,
clear the collected data and both timestamps, and force the state to Idle
(the segmenter reference is left as is). -/
def controllerReset (c : ControllerState) : ControllerState :=
  let c := match c.capture with
    | none => c
    | some _ => { c with capture := none }
  { c with allFrames := [], segments := [], startTime := none, stopTime := none,
           state := RecordingState.idle }

/-! ### HotkeyManager
Embedding of core/hotkey_manager.py.  Keys are strings in the internal
canonical form; the wall clock is integral milliseconds. threading.Timer
objects are modelled as pending-timer records carrying a fresh identifier:
arming appends to the pending list, cancelling removes by identifier, and a
firing is delivered by the environment as a separate event.  Only the tail
timer is stored on the instance (the tailTimer field); the three waiting
timers are anonymous locals in the source. -/

/-- States of the hotkey state machine. -/
inductive HotkeyState where
  | idle
  | voiceRecording
  | voiceTailCollecting
  | waitFirstRelease
  | waitSecondKey
  | waitLongPress
  | translateRecording
  | translateTailCollecting
deriving DecidableEq

/-- Callback actions the manager can trigger. -/
inductive HotkeyAction where
  | voiceInputPress
  | voiceInputRelease
  | quickTranslatePress
  | quickTranslateRelease
deriving DecidableEq

/-- Kinds of timer callbacks armed by the manager. -/
inductive TimerKind where
  | firstPressTimeout
  | doubleClickTimeout
  | checkLongPress
  | voiceTail
  | translateTail
deriving DecidableEq

/-- A pending (armed, not yet fired or cancelled) threading.Timer. -/
structure PendingTimer where
  id : Nat
  kind : TimerKind
  fireAt : Nat
deriving DecidableEq

/-- DEBOUNCE_MS. -/
def debounceMs : Nat := 50

/-- FIRST_RELEASE_TIMEOUT in milliseconds. -/
def firstReleaseTimeoutMs : Nat := 150

/-- DOUBLE_CLICK_INTERVAL in milliseconds. -/
def doubleClickIntervalMs : Nat := 500

/-- LONG_PRESS_THRESHOLD in milliseconds. -/
def longPressThresholdMs : Nat := 350

/-- TAIL_SOUND_DELAY in milliseconds. -/
def tailSoundDelayMs : Nat := 200

/-- WATCHDOG_TIMEOUT_S converted to milliseconds. -/
def watchdogTimeoutMs : Nat := 10000

/-- Silent-death threshold of the watchdog health check (180 s) in
milliseconds. -/
def silentDeadThresholdMs : Nat := 180000

/-- Configured key sets; an empty list stands for a binding that is absent
from the hotkey dictionary (set_hotkey never stores an empty set). -/
structure HotkeyConfig where
  voiceKeys : List String
  translateKeys : List String
deriving DecidableEq

/-- Set insertion on the pressed-keys set. -/
def insertKey (ks : List String) (k : String) : List String :=
  if k ∈ ks then ks else k :: ks

/-- Set discard on the pressed-keys set. -/
def eraseKey (ks : List String) (k : String) : List String :=
  ks.filter (fun x => x ≠ k)

/-- Boolean set equality of two key sets. -/
def setEqb (a b : List String) : Bool :=
  a.all (fun x => b.contains x) && b.all (fun x => a.contains x)

/-- Embedding of the private hotkey matcher: the configured set must exist
and equal the pressed set exactly. -/
def matchHotkey (configured pressed : List String) : Bool :=
  if configured.isEmpty then false else setEqb configured pressed

/-- Dictionary update for the per-key last-keydown times. -/
def setKeyTime (m : List (String × Nat)) (k : String) (t : Nat) :
    List (String × Nat) :=
  (k, t) :: m.filter (fun p => p.1 ≠ k)

/-- Mutable state of a HotkeyManager instance (the listener object and the
Python thread handles live outside the model). -/
structure ManagerState where
  pressedKeys : List String
  fsm : HotkeyState
  lastKeydownTime : List (String × Nat)
  lastActivityTime : Nat
  lastKeyEventTime : Nat
  firstKeydownTime : Option Nat
  firstKeyupTime : Option Nat
  secondKeydownTime : Option Nat
  tailTimer : Option Nat
  timers : List PendingTimer
  nextTimerId : Nat
deriving DecidableEq

/-- Manager state right after construction (at clock 0). -/
def ManagerState.init : ManagerState :=
  ⟨[], HotkeyState.idle, [], 0, 0, none, none, none, none, [], 0⟩

/-- Cancel a stored timer identifier in the pending list (a missing or
already-fired identifier cancels nothing). -/
def cancelTimer (timers : List PendingTimer) (tid : Option Nat) :
    List PendingTimer :=
  match tid with
  | none => timers
  | some i => timers.filter (fun tm => tm.id ≠ i)

/-- Embedding of the private reset-to-idle method: force Idle, refresh the
activity clock, clear the debounce dictionary and the double-press tracking
variables, and cancel the stored tail timer. -/
def resetState (s : ManagerState) (now : Nat) : ManagerState :=
  { s with fsm := HotkeyState.idle,
           lastActivityTime := now,
           lastKeydownTime := [],
           firstKeydownTime := none,
           firstKeyupTime := none,
           secondKeydownTime := none,
           timers := cancelTimer s.timers s.tailTimer,
           tailTimer := none }

/-- The explicit adjacency table of the private transition method. -/
def validTransitions : HotkeyState → List HotkeyState
  | .idle => [.voiceRecording, .waitFirstRelease]
  | .waitFirstRelease => [.waitSecondKey, .idle]
  | .waitSecondKey => [.waitLongPress, .idle]
  | .waitLongPress => [.translateRecording, .idle]
  | .translateRecording => [.translateTailCollecting, .idle]
  | .translateTailCollecting => [.idle]
  | .voiceRecording => [.voiceTailCollecting, .idle]
  | .voiceTailCollecting => [.idle]

/-- Embedding of the private transition method: a requested state with no
edge from the current state is rejected (false, state untouched); a valid
edge is taken and refreshes the activity clock. -/
def transitionState (s : ManagerState) (newState : HotkeyState) (now : Nat) :
    Bool × ManagerState :=
  if newState ∈ validTransitions s.fsm then
    (true, { s with fsm := newState, lastActivityTime := now })
  else (false, s)

/-- Arm a fresh timer: append it to the pending list under a fresh
identifier. -/
def armTimer (s : ManagerState) (kind : TimerKind) (fireAt : Nat) : ManagerState :=
  { s with timers := s.timers ++ [⟨s.nextTimerId, kind, fireAt⟩],
           nextTimerId := s.nextTimerId + 1 }

/-- Embedding of the key-down handler: update the event clock, add the key to
the pressed set, apply the debounce check, record the down time, then
dispatch on the matched binding and the current state exactly as the source
does.  The returned list holds the callbacks triggered by this event. -/
def onPress (cfg : HotkeyConfig) (s : ManagerState) (key : String) (now : Nat) :
    ManagerState × List HotkeyAction :=
  let s := { s with lastKeyEventTime := now,
                    pressedKeys := insertKey s.pressedKeys key }
  let lastTime := (s.lastKeydownTime.lookup key).getD 0
  if now - lastTime < debounceMs then (s, [])
  else
    let s := { s with lastKeydownTime := setKeyTime s.lastKeydownTime key now }
    let isVoice := matchHotkey cfg.voiceKeys s.pressedKeys
    let isTranslate := matchHotkey cfg.translateKeys s.pressedKeys
    if isVoice && (s.fsm == HotkeyState.idle) then
      ((transitionState s HotkeyState.voiceRecording now).2, [HotkeyAction.voiceInputPress])
    else if isTranslate && (s.fsm == HotkeyState.idle) then
      let s := { s with firstKeydownTime := some now, firstKeyupTime := none,
                        secondKeydownTime := none }
      let s := (transitionState s HotkeyState.waitFirstRelease now).2
      (armTimer s TimerKind.firstPressTimeout (now + firstReleaseTimeoutMs), [])
    else if isTranslate && (s.fsm == HotkeyState.waitSecondKey) then
      match s.firstKeyupTime with
      | none => (s, [])
      | some fku =>
        if doubleClickIntervalMs < now - fku then (resetState s now, [])
        else
          let s := { s with secondKeydownTime := some now }
          let s := (transitionState s HotkeyState.waitLongPress now).2
          (armTimer s TimerKind.checkLongPress (now + longPressThresholdMs), [])
    else (s, [])

/-- Embedding of the key-up handler: update the event clock, discard the key
from the pressed set, then dispatch on membership of the key in a configured
binding and the current state exactly as the source does.  In the
first-release branch a missing first-keydown time makes the source raise on
the subtraction; the exception is caught by the handler and leaves the rest
of the state untouched, which the none branch mirrors. -/
def onRelease (cfg : HotkeyConfig) (s : ManagerState) (key : String) (now : Nat) :
    ManagerState × List HotkeyAction :=
  let s := { s with lastKeyEventTime := now,
                    pressedKeys := eraseKey s.pressedKeys key }
  let isVoiceKey := !cfg.voiceKeys.isEmpty && cfg.voiceKeys.contains key
  let isTranslateKey := !cfg.translateKeys.isEmpty && cfg.translateKeys.contains key
  if isTranslateKey && (s.fsm == HotkeyState.waitFirstRelease) then
    match s.firstKeydownTime with
    | none => (s, [])
    | some fkd =>
      if now - fkd ≤ firstReleaseTimeoutMs then
        let s := { s with firstKeyupTime := some now }
        let s := (transitionState s HotkeyState.waitSecondKey now).2
        (armTimer s TimerKind.doubleClickTimeout (now + doubleClickIntervalMs), [])
      else (resetState s now, [])
  else if isTranslateKey && (s.fsm == HotkeyState.waitLongPress) then
    (resetState s now, [])
  else if isVoiceKey && (s.fsm == HotkeyState.voiceRecording) then
    let s := (transitionState s HotkeyState.voiceTailCollecting now).2
    let s := { s with timers := cancelTimer s.timers s.tailTimer }
    let s := { s with tailTimer := some s.nextTimerId }
    (armTimer s TimerKind.voiceTail (now + tailSoundDelayMs), [])
  else if isTranslateKey && (s.fsm == HotkeyState.translateRecording) then
    let s := (transitionState s HotkeyState.translateTailCollecting now).2
    let s := { s with timers := cancelTimer s.timers s.tailTimer }
    let s := { s with tailTimer := some s.nextTimerId }
    (armTimer s TimerKind.translateTail (now + tailSoundDelayMs), [])
  else (s, [])

/-- Delivery of a timer callback: the fired timer leaves the pending list and
its body runs under the state lock, guarded by the state check the source
closure performs. -/
def fireTimer (s : ManagerState) (tm : PendingTimer) (now : Nat) :
    ManagerState × List HotkeyAction :=
  let s := { s with timers := s.timers.filter (fun x => x.id ≠ tm.id) }
  match tm.kind with
  | .firstPressTimeout =>
    if s.fsm == HotkeyState.waitFirstRelease then (resetState s now, []) else (s, [])
  | .doubleClickTimeout =>
    if s.fsm == HotkeyState.waitSecondKey then (resetState s now, []) else (s, [])
  | .checkLongPress =>
    if s.fsm == HotkeyState.waitLongPress then
      ((transitionState s HotkeyState.translateRecording now).2,
       [HotkeyAction.quickTranslatePress])
    else (s, [])
  | .voiceTail =>
    if s.fsm == HotkeyState.voiceTailCollecting then
      ((transitionState s HotkeyState.idle now).2, [HotkeyAction.voiceInputRelease])
    else (s, [])
  | .translateTail =>
    if s.fsm == HotkeyState.translateTailCollecting then
      ((transitionState s HotkeyState.idle now).2, [HotkeyAction.quickTranslateRelease])
    else (s, [])

/-- Embedding of one pass of the watchdog loop body at time now: the periodic
health check (when due and a listener object exists) restarts the listener if
its thread died or if no key event arrived for more than the silent-death
threshold, regardless of the machine state; then the state block refreshes
the activity clock in Idle and otherwise forces a reset once the activity gap
exceeds the watchdog timeout.  The Boolean result reports whether a restart
was spawned. -/
def watchdogTick (s : ManagerState) (now : Nat)
    (healthCheckDue listenerExists listenerAlive : Bool) :
    ManagerState × Bool :=
  let restart := healthCheckDue && listenerExists &&
    (!listenerAlive || decide (silentDeadThresholdMs < now - s.lastKeyEventTime))
  let s :=
    if s.fsm == HotkeyState.idle then { s with lastActivityTime := now }
    else if watchdogTimeoutMs < now - s.lastActivityTime then resetState s now
    else s
  (s, restart)

/-! ### Theorems -/

theorem processFrames_append {α : Type} (c : VadConfig) (cls : α → Bool)
    (xs ys : List α) : ∀ (s : VadState α),
    processFrames c cls s (xs ++ ys) =
      ((processFrames c cls (processFrames c cls s xs).1 ys).1,
       (processFrames c cls s xs).2 ++ (processFrames c cls (processFrames c cls s xs).1 ys).2) := by
  induction xs with
  | nil => intro s; simp [processFrames]
  | cons x xs ih =>
    intro s
    simp only [List.cons_append, processFrames, List.append_eq]
    rw [ih]
    simp [List.append_assoc]

theorem processFrames_speech_run (c : VadConfig) (n : Nat) :
    ∀ (s : VadState Bool), s.inSpeech = true →
    processFrames c id s (List.replicate n true) =
      ({ s with currentSegment := s.currentSegment ++ List.replicate n true,
                speechFrames := s.speechFrames + n,
                totalFrames := s.totalFrames + n }, []) := by
  induction n with
  | zero => intro s h; simp [processFrames]
  | succ n ih =>
    intro s h
    rw [List.replicate_succ]
    simp only [processFrames, processFrame, id_eq, if_true]
    rw [show ({ s with totalFrames := s.totalFrames + 1 } : VadState Bool).inSpeech = true from h]
    simp only [if_true]
    rw [ih _ (by simp [h])]
    simp [List.append_assoc, List.replicate_succ]
    omega

theorem processFrames_silence_ignored (c : VadConfig) (n : Nat) :
    ∀ (s : VadState Bool), s.inSpeech = false →
    processFrames c id s (List.replicate n false) =
      ({ s with totalFrames := s.totalFrames + n }, []) := by
  induction n with
  | zero => intro s h; simp [processFrames]
  | succ n ih =>
    intro s h
    rw [List.replicate_succ]
    simp only [processFrames, processFrame, id_eq, Bool.false_eq_true, if_false]
    rw [show ({ s with totalFrames := s.totalFrames + 1 } : VadState Bool).inSpeech = false from h]
    simp only [Bool.false_eq_true, if_false]
    rw [ih _ (by simp [h])]
    simp
    omega

theorem processFrames_silence_buffered (c : VadConfig) (n : Nat) :
    ∀ (s : VadState Bool), s.inSpeech = true →
    s.silenceFrames + n < c.silenceThresholdFrames →
    processFrames c id s (List.replicate n false) =
      ({ s with currentSegment := s.currentSegment ++ List.replicate n false,
                silenceFrames := s.silenceFrames + n,
                totalFrames := s.totalFrames + n }, []) := by
  induction n with
  | zero => intro s h _; simp [processFrames]
  | succ n ih =>
    intro s h hlt
    rw [List.replicate_succ]
    simp only [processFrames, processFrame, id_eq, Bool.false_eq_true, if_false]
    rw [show ({ s with totalFrames := s.totalFrames + 1 } : VadState Bool).inSpeech = true from h]
    simp only [if_true]
    rw [if_neg (by simp; omega)]
    rw [ih _ (by simp [h]) (by simp; omega)]
    simp [List.append_assoc, List.replicate_succ]
    omega

theorem processFrames_first_speech (c : VadConfig) (k : Nat) :
    processFrames c id (VadState.init Bool) (List.replicate (k + 1) true) =
      ({ currentSegment := List.replicate (k + 1) true, inSpeech := true,
         silenceFrames := 0, speechFrames := k + 1, totalFrames := k + 1,
         segmentsCompleted := 0 }, []) := by
  rw [List.replicate_succ]
  simp only [processFrames, processFrame, id_eq, if_true]
  rw [show ((VadState.init Bool).totalFrames = 0) from rfl]
  simp only [VadState.init]
  rw [processFrames_speech_run c k _ (by rfl)]
  simp [List.replicate_succ, Nat.add_comm]

/-- Claim C6: feeding speech-classified frames followed by at least
silence_threshold_frames silence-classified frames emits exactly one segment
(consisting of the speech frames followed by exactly silence_threshold_frames
buffered silence frames, so its speech-classified frame count equals
speechFrames) when speechFrames is at least min_speech_frames, and emits no
segment otherwise.  The two threshold hypotheses hold for every configuration
this repository constructs (500 ms silence and 300 ms minimum speech give 16
and 10 frames respectively). -/
theorem c6_vad_round_trip (c : VadConfig) (speechFrames silenceFrames : Nat)
    (hthr : 1 ≤ c.silenceThresholdFrames)
    (hmin : 1 ≤ c.minSpeechFrames)
    (hm : c.silenceThresholdFrames ≤ silenceFrames) :
    (processFrames c id (VadState.init Bool)
        (List.replicate speechFrames true ++ List.replicate silenceFrames false)).2 =
      if c.minSpeechFrames ≤ speechFrames then
        [List.replicate speechFrames true ++
         List.replicate c.silenceThresholdFrames false]
      else [] := by
  rcases Nat.eq_zero_or_pos speechFrames with h0 | hpos
  · subst h0
    simp only [List.replicate_zero, List.nil_append]
    rw [processFrames_silence_ignored c silenceFrames (VadState.init Bool) rfl]
    rw [if_neg (by omega)]
  · obtain ⟨k, rfl⟩ : ∃ k, speechFrames = k + 1 := ⟨speechFrames - 1, by omega⟩
    rw [processFrames_append, processFrames_first_speech]
    have hsplit : List.replicate silenceFrames (false : Bool) =
        List.replicate (c.silenceThresholdFrames - 1) false ++
          (false :: List.replicate (silenceFrames - c.silenceThresholdFrames) false) := by
      rw [show (false : Bool) :: List.replicate (silenceFrames - c.silenceThresholdFrames) false
            = List.replicate (silenceFrames - c.silenceThresholdFrames + 1) false by
            rw [List.replicate_succ]]
      rw [← List.replicate_add]
      congr 1
      omega
    rw [hsplit, processFrames_append]
    rw [processFrames_silence_buffered c (c.silenceThresholdFrames - 1) _ rfl (by simp; omega)]
    simp only [processFrames, processFrame, id_eq, Bool.false_eq_true, if_false, if_true]
    rw [show 0 + (c.silenceThresholdFrames - 1) + 1 = c.silenceThresholdFrames from by omega]
    rw [if_pos (le_refl c.silenceThresholdFrames)]
    rw [List.append_assoc,
        show List.replicate (c.silenceThresholdFrames - 1) (false : Bool) ++ [false]
          = List.replicate c.silenceThresholdFrames false from by
          rw [← List.replicate_succ']
          congr 1
          omega]
    simp only [finalizeSegment]
    rw [if_neg (by simp [List.replicate_succ])]
    rcases lt_or_le (k + 1) c.minSpeechFrames with hlt | hge
    · rw [if_pos hlt]
      simp only
      rw [processFrames_silence_ignored _ _ _ rfl]
      rw [if_neg (by omega)]
      simp
    · rw [if_neg (by omega)]
      simp only
      rw [processFrames_silence_ignored _ _ _ rfl]
      rw [if_pos (by omega)]
      simp [List.append_assoc]

/-- Witness for C6 at the configuration the repository constructs (500 ms
silence threshold, 300 ms minimum speech), with 12 speech frames and 20
silence frames. -/
theorem c6_vad_round_trip_witness :
    1 ≤ (⟨16000, 500, 300, 300⟩ : VadConfig).silenceThresholdFrames ∧
    1 ≤ (⟨16000, 500, 300, 300⟩ : VadConfig).minSpeechFrames ∧
    (⟨16000, 500, 300, 300⟩ : VadConfig).silenceThresholdFrames ≤ 20 ∧
    (processFrames (⟨16000, 500, 300, 300⟩ : VadConfig) id (VadState.init Bool)
        (List.replicate 12 true ++ List.replicate 20 false)).2 =
      if (⟨16000, 500, 300, 300⟩ : VadConfig).minSpeechFrames ≤ 12 then
        [List.replicate 12 true ++
         List.replicate (⟨16000, 500, 300, 300⟩ : VadConfig).silenceThresholdFrames false]
      else [] :=
  ⟨by decide, by decide, by decide,
   c6_vad_round_trip ⟨16000, 500, 300, 300⟩ 12 20 (by decide) (by decide) (by decide)⟩

/-- Claim C10: the configured hangover time is stored and converted to a frame
count in the constructor but never consulted afterwards, so two segmenters
whose configurations agree except possibly on hangover_time_ms emit exactly
the same segments through process_frame and through a forced finalize, on
every input sequence from every starting state. -/
theorem c10_hangover_no_effect {α : Type} (c1 c2 : VadConfig) (cls : α → Bool)
    (input : List α) (s : VadState α)
    (_hsr : c1.sampleRate = c2.sampleRate)
    (hst : c1.silenceThresholdMs = c2.silenceThresholdMs)
    (hms : c1.minSpeechDurationMs = c2.minSpeechDurationMs) :
    processFrames c1 cls s input = processFrames c2 cls s input ∧
    vadFinalize c1 (processFrames c1 cls s input).1 =
      vadFinalize c2 (processFrames c2 cls s input).1 := by
  have hM : c1.minSpeechFrames = c2.minSpeechFrames := by
    simp [VadConfig.minSpeechFrames, hms]
  have hT : c1.silenceThresholdFrames = c2.silenceThresholdFrames := by
    simp [VadConfig.silenceThresholdFrames, hst]
  have hfin : ∀ t : VadState α, finalizeSegment c1 t = finalizeSegment c2 t := by
    intro t
    simp [finalizeSegment, hM]
  have hpf : ∀ (t : VadState α) (f : α), processFrame c1 cls t f = processFrame c2 cls t f := by
    intro t f
    simp [processFrame, hT, hfin]
  have hrun : ∀ (t : VadState α), processFrames c1 cls t input = processFrames c2 cls t input := by
    induction input with
    | nil => intro t; simp [processFrames]
    | cons f fs ih =>
      intro t
      simp only [processFrames, hpf, ih]
  exact ⟨hrun s, by rw [hrun s]; simp [vadFinalize, hfin]⟩

/-- Witness for C10: hangover 300 ms versus 0 ms on a concrete input. -/
theorem c10_hangover_no_effect_witness :
    processFrames (⟨16000, 500, 300, 300⟩ : VadConfig) id (VadState.init Bool) [true, false, true]
      = processFrames (⟨16000, 500, 0, 300⟩ : VadConfig) id (VadState.init Bool) [true, false, true] ∧
    vadFinalize (⟨16000, 500, 300, 300⟩ : VadConfig)
        (processFrames (⟨16000, 500, 300, 300⟩ : VadConfig) id (VadState.init Bool) [true, false, true]).1
      = vadFinalize (⟨16000, 500, 0, 300⟩ : VadConfig)
        (processFrames (⟨16000, 500, 0, 300⟩ : VadConfig) id (VadState.init Bool) [true, false, true]).1 :=
  c10_hangover_no_effect ⟨16000, 500, 300, 300⟩ ⟨16000, 500, 0, 300⟩ id
    [true, false, true] (VadState.init Bool) rfl rfl rfl

theorem applyOp_generation_le (w : WorkerState) (op : WorkerOp) :
    w.generation ≤ (applyOp w op).generation := by
  cases op with
  | startSession => simp [applyOp, startSession]
  | pushSegment segment =>
    simp only [applyOp, pushSegment]
    split <;> simp
  | finalizeSession =>
    simp only [applyOp, finalizeSession]
    split
    · simp
    · split <;> simp
  | processAudio audioData =>
    simp only [applyOp, processAudio]
    split
    · simp
    · split <;> simp
  | workerStep =>
    cases hq : w.queue with
    | nil => simp [applyOp, workerStep, hq]
    | cons item rest =>
      simp only [applyOp, workerStep, hq]
      split <;> simp

theorem runOps_generation_le (ops : List WorkerOp) :
    ∀ (w : WorkerState), w.generation ≤ (runOps w ops).generation := by
  induction ops with
  | nil => intro w; simp [runOps]
  | cons op ops ih =>
    intro w
    calc w.generation ≤ (applyOp w op).generation := applyOp_generation_le w op
      _ ≤ (runOps (applyOp w op) ops).generation := ih _
      _ = (runOps w (op :: ops)).generation := rfl

theorem runOps_take_le (w : WorkerState) (ops : List WorkerOp) (i j : Nat)
    (hij : i ≤ j) :
    (runOps w (ops.take i)).generation ≤ (runOps w (ops.take j)).generation := by
  have h1 : ops.take j = ops.take i ++ (ops.drop i).take (j - i) := by
    rw [← List.take_add]
    congr 1
    omega
  rw [h1]
  simp only [runOps]
  rw [List.foldl_append]
  exact runOps_generation_le _ _

/-- Claim C1: across any history of worker calls the generation counter never
decreases and each start_session call strictly increases it, so the
generation a start_session call yields is strictly greater than the one any
earlier call yielded and is never reused; and whenever the worker loop
dequeues an item whose stored generation (0 for untag items) differs from the
live counter, the item is dropped: the queue shrinks, nothing else changes,
and no audio is handed to recognition. -/
theorem c1_generation_monotone_and_stale_drop :
    (∀ (w : WorkerState) (ops : List WorkerOp) (i j : Nat),
      i < j → j < ops.length →
      ops[i]? = some WorkerOp.startSession → ops[j]? = some WorkerOp.startSession →
      (runOps w (ops.take (i + 1))).generation < (runOps w (ops.take (j + 1))).generation)
    ∧ (∀ (w : WorkerState) (item : AsrItem) (rest : List AsrItem),
      w.queue = item :: rest → item.audioGen.2 ≠ w.generation →
      workerStep w = ({ w with queue := rest }, none)) := by
  constructor
  · intro w ops i j hij hj _hi hsj
    have h1 : (runOps w (ops.take (i + 1))).generation ≤ (runOps w (ops.take j)).generation :=
      runOps_take_le w ops (i + 1) j (by omega)
    have h2 : ops.take (j + 1) = ops.take j ++ [WorkerOp.startSession] := by
      rw [List.take_succ, hsj]
      rfl
    rw [h2]
    simp only [runOps]
    rw [List.foldl_append]
    simp only [List.foldl_cons, List.foldl_nil, applyOp, startSession]
    exact Nat.lt_succ_of_le h1
  · intro w item rest hq hg
    simp [workerStep, hq, hg]

/-- Witness for C1: the history (start, push, start) and a concrete stale
dequeue (stored generation 0, live generation 5). -/
theorem c1_generation_witness :
    ((0 : Nat) < 2 ∧ 2 < 3 ∧
      ([WorkerOp.startSession, WorkerOp.pushSegment [[1]], WorkerOp.startSession])[0]?
        = some WorkerOp.startSession ∧
      ([WorkerOp.startSession, WorkerOp.pushSegment [[1]], WorkerOp.startSession])[2]?
        = some WorkerOp.startSession ∧
      (runOps WorkerState.init
          (([WorkerOp.startSession, WorkerOp.pushSegment [[1]], WorkerOp.startSession]).take 1)).generation
        < (runOps WorkerState.init
          (([WorkerOp.startSession, WorkerOp.pushSegment [[1]], WorkerOp.startSession]).take 3)).generation)
    ∧ workerStep ⟨5, [], [AsrItem.tagged [2] 0], 0, 0⟩
        = (⟨5, [], [], 0, 0⟩, none) := by
  constructor
  · refine ⟨by decide, by decide, by decide, by decide, ?_⟩
    exact c1_generation_monotone_and_stale_drop.1 WorkerState.init
      [WorkerOp.startSession, WorkerOp.pushSegment [[1]], WorkerOp.startSession]
      0 2 (by decide) (by decide) (by decide) (by decide)
  · exact c1_generation_monotone_and_stale_drop.2 ⟨5, [], [AsrItem.tagged [2] 0], 0, 0⟩
      (AsrItem.tagged [2] 0) [] rfl (by decide)

/-- Counterexample to C4 as stated: with the session state already Recording,
start returns true, not false (the state is indeed left untouched). -/
theorem c4_start_counterexample :
    (controllerStart ⟨RecordingState.recording, none, none, [], [], none, none⟩ 0 true).1 = true
    ∧ (controllerStart ⟨RecordingState.recording, none, none, [], [], none, none⟩ 0 true).2
        = ⟨RecordingState.recording, none, none, [], [], none, none⟩
    ∧ ¬ (controllerStart ⟨RecordingState.recording, none, none, [], [], none, none⟩ 0 true).1 = false := by
  decide

/-- Claim C4 amended: a start call in any state other than Idle changes
nothing and returns whether the state is Recording — true when a recording is
already running, false when Finalizing. -/
theorem c4_start_rejected_amended (c : ControllerState) (t : Nat) (captureStartOk : Bool)
    (h : c.state ≠ RecordingState.idle) :
    controllerStart c t captureStartOk = (c.state == RecordingState.recording, c) := by
  simp [controllerStart, h]

/-- Witness for the amended C4 at a Finalizing state. -/
theorem c4_start_rejected_witness :
    (⟨RecordingState.finalizing, none, none, [], [], none, none⟩ : ControllerState).state
        ≠ RecordingState.idle
    ∧ controllerStart ⟨RecordingState.finalizing, none, none, [], [], none, none⟩ 5 true
        = (false, ⟨RecordingState.finalizing, none, none, [], [], none, none⟩) :=
  ⟨by decide, by
    rw [c4_start_rejected_amended ⟨RecordingState.finalizing, none, none, [], [], none, none⟩
      5 true (by decide)]
    decide⟩

/-- Claim C9 is violated by the code: get_frames only snapshots the deque and
never removes anything, so with a single frame (number 7) buffered and no new
audio arriving, two consecutive processing-loop iterations hand that same
frame to the segmenter twice, and the capture buffer still holds it
afterwards. -/
theorem c9_frame_delivered_twice :
    (processingIteration ⟨16000, 500, 300, 300⟩ (fun _ => true)
        ⟨⟨true, [7], 1⟩, VadState.init Nat, [], []⟩).2 = [7]
    ∧ (processingIteration ⟨16000, 500, 300, 300⟩ (fun _ => true)
        (processingIteration ⟨16000, 500, 300, 300⟩ (fun _ => true)
          ⟨⟨true, [7], 1⟩, VadState.init Nat, [], []⟩).1).2 = [7]
    ∧ (processingIteration ⟨16000, 500, 300, 300⟩ (fun _ => true)
        (processingIteration ⟨16000, 500, 300, 300⟩ (fun _ => true)
          ⟨⟨true, [7], 1⟩, VadState.init Nat, [], []⟩).1).1.allFrames = [7, 7]
    ∧ (processingIteration ⟨16000, 500, 300, 300⟩ (fun _ => true)
        (processingIteration ⟨16000, 500, 300, 300⟩ (fun _ => true)
          ⟨⟨true, [7], 1⟩, VadState.init Nat, [], []⟩).1).1.capture.buffer = [7] := by
  decide

/-- Counterexample to C5 as stated: finalize_session is not idempotent — with
one pending session segment and an empty queue, a second call enqueues the
joined session audio a second time. -/
theorem c5_finalize_counterexample :
    finalizeSession (finalizeSession ⟨0, [[1]], [], 0, 0⟩) ≠ finalizeSession ⟨0, [[1]], [], 0, 0⟩
    ∧ (finalizeSession (finalizeSession ⟨0, [[1]], [], 0, 0⟩)).queue
        = [AsrItem.raw [1], AsrItem.raw [1]]
    ∧ (finalizeSession ⟨0, [[1]], [], 0, 0⟩).queue = [AsrItem.raw [1]] := by
  decide

/-- Claim C5 amended: the reset operations are idempotent (calling twice at
the same instant equals calling once), but ASRWorker.finalize_session is not:
it never clears the session segment list, so whenever segments are pending
and the queue has room a second call appends a duplicate of the joined
session audio to the queue. -/
theorem c5_reset_idempotent_finalize_not :
    (∀ (s : ManagerState) (now : Nat),
      resetState (resetState s now) now = resetState s now)
    ∧ (∀ (c : ControllerState), controllerReset (controllerReset c) = controllerReset c)
    ∧ (∀ (w : WorkerState), ¬ w.currentSessionSegments.isEmpty →
        w.queue.length + 1 < queueMaxsize →
        finalizeSession (finalizeSession w)
          = { finalizeSession w with
              queue := (finalizeSession w).queue
                ++ [AsrItem.raw (joinAudio w.currentSessionSegments)] }) := by
  refine ⟨?_, ?_, ?_⟩
  · intro s now
    rfl
  · intro c
    rcases hc : c.capture with _ | cap <;> simp [controllerReset, hc]
  · intro w h1 h2
    have hq1 : w.queue.length < queueMaxsize := by omega
    have hinner : finalizeSession w
        = { w with queue := w.queue ++ [AsrItem.raw (joinAudio w.currentSessionSegments)] } := by
      simp only [finalizeSession]
      rw [if_neg (by simpa using h1), if_pos hq1]
    rw [hinner]
    simp only [finalizeSession]
    rw [if_neg (by simpa using h1), if_pos (by simp; omega)]

/-- Witness for the amended C5 at concrete states. -/
theorem c5_reset_idempotent_witness :
    ¬ (⟨0, [[2]], [], 0, 0⟩ : WorkerState).currentSessionSegments.isEmpty
    ∧ (⟨0, [[2]], [], 0, 0⟩ : WorkerState).queue.length + 1 < queueMaxsize
    ∧ resetState (resetState ManagerState.init 3) 3 = resetState ManagerState.init 3
    ∧ controllerReset (controllerReset
        ⟨RecordingState.recording, some ⟨true, [4], 1⟩, none, [4], [], some 1, none⟩)
      = controllerReset ⟨RecordingState.recording, some ⟨true, [4], 1⟩, none, [4], [], some 1, none⟩
    ∧ finalizeSession (finalizeSession ⟨0, [[2]], [], 0, 0⟩)
        = { finalizeSession ⟨0, [[2]], [], 0, 0⟩ with
            queue := (finalizeSession ⟨0, [[2]], [], 0, 0⟩).queue
              ++ [AsrItem.raw (joinAudio [[2]])] } :=
  ⟨by decide, by decide,
   c5_reset_idempotent_finalize_not.1 ManagerState.init 3,
   c5_reset_idempotent_finalize_not.2.1
     ⟨RecordingState.recording, some ⟨true, [4], 1⟩, none, [4], [], some 1, none⟩,
   c5_reset_idempotent_finalize_not.2.2 ⟨0, [[2]], [], 0, 0⟩ (by decide) (by decide)⟩

theorem mem_insertKey (ks : List String) (k : String) : k ∈ insertKey ks k := by
  unfold insertKey
  split
  · assumption
  · exact List.mem_cons_self k ks

theorem insertKey_of_mem {ks : List String} {k : String} (h : k ∈ ks) :
    insertKey ks k = ks := by
  simp [insertKey, h]

theorem transitionState_snd_pressedKeys (s : ManagerState) (ns : HotkeyState)
    (now : Nat) : (transitionState s ns now).2.pressedKeys = s.pressedKeys := by
  simp only [transitionState]
  split <;> rfl

theorem onPress_pressedKeys (cfg : HotkeyConfig) (s : ManagerState)
    (k : String) (now : Nat) :
    (onPress cfg s k now).1.pressedKeys = insertKey s.pressedKeys k := by
  cases hf : s.firstKeyupTime with
  | none =>
    simp only [onPress, hf]
    split_ifs <;> simp [transitionState_snd_pressedKeys, armTimer, resetState]
  | some fku =>
    simp only [onPress, hf]
    split_ifs <;> simp [transitionState_snd_pressedKeys, armTimer, resetState]

/-- Counterexample to C2 as stated: pressing the translate key arms the
first-press timer, and the quick release that follows arms the double-click
timer without cancelling it, so two timers are pending for the binding at
once; a reset at that point restores Idle but cancels neither (only a stored
tail timer would be cancelled). -/
theorem c2_timer_counterexample :
    ((onRelease ⟨["alt_l"], ["cmd"]⟩
        (onPress ⟨["alt_l"], ["cmd"]⟩ ManagerState.init "cmd" 1000).1 "cmd" 1050).1).timers
      = [⟨0, TimerKind.firstPressTimeout, 1150⟩, ⟨1, TimerKind.doubleClickTimeout, 1550⟩]
    ∧ (resetState ((onRelease ⟨["alt_l"], ["cmd"]⟩
        (onPress ⟨["alt_l"], ["cmd"]⟩ ManagerState.init "cmd" 1000).1 "cmd" 1050).1) 1060).timers
      = [⟨0, TimerKind.firstPressTimeout, 1150⟩, ⟨1, TimerKind.doubleClickTimeout, 1550⟩]
    ∧ (resetState ((onRelease ⟨["alt_l"], ["cmd"]⟩
        (onPress ⟨["alt_l"], ["cmd"]⟩ ManagerState.init "cmd" 1000).1 "cmd" 1050).1) 1060).fsm
      = HotkeyState.idle := by
  decide

/-- Claim C2 amended: only the tail timer is single-slotted — a key release
that enters a tail-collecting state first cancels the stored tail timer and
then arms the new one in its slot, and a reset restores Idle and cancels the
stored tail timer; the waiting-state timers are anonymous fire-and-forget
objects that arming never cancels and reset leaves pending. -/
theorem c2_tail_single_slot_amended :
    (∀ (cfg : HotkeyConfig) (s : ManagerState) (k : String) (now : Nat),
      s.fsm = HotkeyState.voiceRecording →
      (!cfg.voiceKeys.isEmpty && cfg.voiceKeys.contains k) = true →
      (onRelease cfg s k now).1.timers
          = cancelTimer s.timers s.tailTimer
            ++ [⟨s.nextTimerId, TimerKind.voiceTail, now + tailSoundDelayMs⟩]
        ∧ (onRelease cfg s k now).1.tailTimer = some s.nextTimerId)
    ∧ (∀ (cfg : HotkeyConfig) (s : ManagerState) (k : String) (now : Nat),
      s.fsm = HotkeyState.translateRecording →
      (!cfg.translateKeys.isEmpty && cfg.translateKeys.contains k) = true →
      (onRelease cfg s k now).1.timers
          = cancelTimer s.timers s.tailTimer
            ++ [⟨s.nextTimerId, TimerKind.translateTail, now + tailSoundDelayMs⟩]
        ∧ (onRelease cfg s k now).1.tailTimer = some s.nextTimerId)
    ∧ (∀ (s : ManagerState) (now : Nat),
      (resetState s now).fsm = HotkeyState.idle
        ∧ (resetState s now).tailTimer = none
        ∧ (resetState s now).timers = cancelTimer s.timers s.tailTimer) := by
  refine ⟨?_, ?_, ?_⟩
  · intro cfg s k now hfsm hk
    have hk2 : ¬cfg.voiceKeys = [] ∧ k ∈ cfg.voiceKeys := by simpa using hk
    simp [onRelease, hfsm, transitionState, validTransitions, armTimer, hk2.1, hk2.2]
  · intro cfg s k now hfsm hk
    have hk2 : ¬cfg.translateKeys = [] ∧ k ∈ cfg.translateKeys := by simpa using hk
    simp [onRelease, hfsm, transitionState, validTransitions, armTimer, hk2.1, hk2.2]
  · intro s now
    exact ⟨rfl, rfl, rfl⟩

/-- Witness for the amended C2: a voice-key release during voice recording
with a stale tail timer stored, a translate-key release during translate
recording, and a reset of the resulting state. -/
theorem c2_tail_single_slot_witness :
    ({ ManagerState.init with fsm := HotkeyState.voiceRecording, tailTimer := some 0,
                               timers := [⟨0, TimerKind.voiceTail, 500⟩], nextTimerId := 1 }
        : ManagerState).fsm = HotkeyState.voiceRecording
    ∧ ((!(⟨["alt_l"], ["cmd"]⟩ : HotkeyConfig).voiceKeys.isEmpty
        && (⟨["alt_l"], ["cmd"]⟩ : HotkeyConfig).voiceKeys.contains "alt_l") = true)
    ∧ (onRelease ⟨["alt_l"], ["cmd"]⟩
        { ManagerState.init with fsm := HotkeyState.voiceRecording, tailTimer := some 0,
                                 timers := [⟨0, TimerKind.voiceTail, 500⟩], nextTimerId := 1 }
        "alt_l" 2000).1.timers
      = cancelTimer [⟨0, TimerKind.voiceTail, 500⟩] (some 0)
          ++ [⟨1, TimerKind.voiceTail, 2000 + tailSoundDelayMs⟩]
    ∧ (resetState ManagerState.init 7).timers = cancelTimer [] none :=
  ⟨rfl, by decide,
   by
    have h := (c2_tail_single_slot_amended.1 ⟨["alt_l"], ["cmd"]⟩
      { ManagerState.init with fsm := HotkeyState.voiceRecording, tailTimer := some 0,
                               timers := [⟨0, TimerKind.voiceTail, 500⟩], nextTimerId := 1 }
      "alt_l" 2000 rfl (by decide)).1
    simpa using h,
   by
    have h := (c2_tail_single_slot_amended.2.2 ManagerState.init 7).2.2
    simpa using h⟩

/-- Counterexample to C3 as stated: with voice recording active, no state
transition for 200 s and no key event for 200 s, one due health check of the
watchdog spawns a listener restart (silent-death staleness) and the state
block force-resets the machine to Idle. -/
theorem c3_watchdog_counterexample :
    ({ ManagerState.init with fsm := HotkeyState.voiceRecording } : ManagerState).fsm
        = HotkeyState.voiceRecording
    ∧ (watchdogTick { ManagerState.init with fsm := HotkeyState.voiceRecording }
        200000 true true true).2 = true
    ∧ (watchdogTick { ManagerState.init with fsm := HotkeyState.voiceRecording }
        200000 true true true).1.fsm = HotkeyState.idle := by
  decide

/-- Claim C3 amended: staleness handling is not suspended while recording —
only Idle refreshes the activity clock and never force-resets; in every
non-Idle state (Recording included) the watchdog forces a reset once the
activity gap exceeds the 10 s timeout; and whether a listener restart is
spawned does not depend on the machine state at all. -/
theorem c3_watchdog_amended :
    (∀ (s : ManagerState) (now : Nat) (b1 b2 b3 : Bool),
      s.fsm = HotkeyState.idle →
      (watchdogTick s now b1 b2 b3).1 = { s with lastActivityTime := now })
    ∧ (∀ (s : ManagerState) (now : Nat) (b1 b2 b3 : Bool),
      s.fsm ≠ HotkeyState.idle →
      watchdogTimeoutMs < now - s.lastActivityTime →
      (watchdogTick s now b1 b2 b3).1 = resetState s now)
    ∧ (∀ (s : ManagerState) (now : Nat) (b1 b2 b3 : Bool) (f1 f2 : HotkeyState),
      (watchdogTick { s with fsm := f1 } now b1 b2 b3).2
        = (watchdogTick { s with fsm := f2 } now b1 b2 b3).2) := by
  refine ⟨?_, ?_, ?_⟩
  · intro s now b1 b2 b3 h
    simp [watchdogTick, h]
  · intro s now b1 b2 b3 h helapsed
    simp [watchdogTick, h, helapsed]
  · intro s now b1 b2 b3 f1 f2
    simp [watchdogTick]

/-- Witness for the amended C3. -/
theorem c3_watchdog_witness :
    (watchdogTick ManagerState.init 5 false false false).1
        = { ManagerState.init with lastActivityTime := 5 }
    ∧ ({ ManagerState.init with fsm := HotkeyState.voiceRecording } : ManagerState).fsm
        ≠ HotkeyState.idle
    ∧ watchdogTimeoutMs
        < 20000 - ({ ManagerState.init with fsm := HotkeyState.voiceRecording } : ManagerState).lastActivityTime
    ∧ (watchdogTick { ManagerState.init with fsm := HotkeyState.voiceRecording }
        20000 false false false).1
      = resetState { ManagerState.init with fsm := HotkeyState.voiceRecording } 20000
    ∧ (watchdogTick { ManagerState.init with fsm := HotkeyState.voiceRecording }
        200000 true true true).2
      = (watchdogTick { ManagerState.init with fsm := HotkeyState.idle }
        200000 true true true).2 :=
  ⟨c3_watchdog_amended.1 ManagerState.init 5 false false false rfl,
   by decide, by decide,
   c3_watchdog_amended.2.1 { ManagerState.init with fsm := HotkeyState.voiceRecording }
     20000 false false false (by decide) (by decide),
   c3_watchdog_amended.2.2 ManagerState.init 200000 true true true
     HotkeyState.voiceRecording HotkeyState.idle⟩

/-- Claim C7: a requested transition with no edge in the adjacency table is
rejected with false and an untouched state; a key-down event arriving in any
state from which key-down has no edge (every state other than Idle and
WaitSecondKey) and a key-up event arriving in any state from which key-up has
no edge (every state other than WaitFirstRelease, WaitLongPress,
VoiceRecording and TranslateRecording) leave the machine state unchanged and
trigger no callback; both handlers are total functions, mirroring the
catch-all that prevents exceptions from escaping. -/
theorem c7_transition_table_guard :
    (∀ (s : ManagerState) (ns : HotkeyState) (now : Nat),
      ns ∉ validTransitions s.fsm → transitionState s ns now = (false, s))
    ∧ (∀ (cfg : HotkeyConfig) (s : ManagerState) (k : String) (now : Nat),
      s.fsm ≠ HotkeyState.idle → s.fsm ≠ HotkeyState.waitSecondKey →
      (onPress cfg s k now).1.fsm = s.fsm ∧ (onPress cfg s k now).2 = [])
    ∧ (∀ (cfg : HotkeyConfig) (s : ManagerState) (k : String) (now : Nat),
      s.fsm ≠ HotkeyState.waitFirstRelease → s.fsm ≠ HotkeyState.waitLongPress →
      s.fsm ≠ HotkeyState.voiceRecording → s.fsm ≠ HotkeyState.translateRecording →
      (onRelease cfg s k now).1.fsm = s.fsm ∧ (onRelease cfg s k now).2 = []) := by
  refine ⟨?_, ?_, ?_⟩
  · intro s ns now h
    simp [transitionState, h]
  · intro cfg s k now h1 h2
    cases hf : s.firstKeyupTime with
    | none =>
      simp only [onPress, hf]
      split_ifs <;> simp_all [resetState]
    | some fku =>
      simp only [onPress, hf]
      split_ifs <;> simp_all [resetState]
  · intro cfg s k now h1 h2 h3 h4
    cases hf : s.firstKeydownTime with
    | none =>
      simp only [onRelease, hf]
      split_ifs <;> simp_all [resetState, transitionState, armTimer]
    | some fkd =>
      simp only [onRelease, hf]
      split_ifs <;> simp_all [resetState, transitionState, armTimer]

/-- Witness for C7: requesting TranslateRecording from Idle (no edge), a
voice-key down arriving during voice recording, and a translate-key up
arriving in Idle. -/
theorem c7_transition_table_witness :
    HotkeyState.translateRecording ∉ validTransitions (ManagerState.init).fsm
    ∧ transitionState ManagerState.init HotkeyState.translateRecording 9
        = (false, ManagerState.init)
    ∧ ({ ManagerState.init with fsm := HotkeyState.voiceRecording } : ManagerState).fsm
        ≠ HotkeyState.idle
    ∧ (onPress ⟨["alt_l"], ["cmd"]⟩
        { ManagerState.init with fsm := HotkeyState.voiceRecording } "alt_l" 1000).1.fsm
      = HotkeyState.voiceRecording
    ∧ (onPress ⟨["alt_l"], ["cmd"]⟩
        { ManagerState.init with fsm := HotkeyState.voiceRecording } "alt_l" 1000).2 = []
    ∧ (ManagerState.init).fsm ≠ HotkeyState.waitFirstRelease
    ∧ (onRelease ⟨["alt_l"], ["cmd"]⟩ ManagerState.init "cmd" 1000).1.fsm
        = HotkeyState.idle
    ∧ (onRelease ⟨["alt_l"], ["cmd"]⟩ ManagerState.init "cmd" 1000).2 = [] := by
  refine ⟨by decide, c7_transition_table_guard.1 ManagerState.init
    HotkeyState.translateRecording 9 (by decide), by decide, ?_, ?_, by decide, ?_, ?_⟩
  · exact (c7_transition_table_guard.2.1 ⟨["alt_l"], ["cmd"]⟩
      { ManagerState.init with fsm := HotkeyState.voiceRecording } "alt_l" 1000
      (by decide) (by decide)).1
  · exact (c7_transition_table_guard.2.1 ⟨["alt_l"], ["cmd"]⟩
      { ManagerState.init with fsm := HotkeyState.voiceRecording } "alt_l" 1000
      (by decide) (by decide)).2
  · exact (c7_transition_table_guard.2.2 ⟨["alt_l"], ["cmd"]⟩
      ManagerState.init "cmd" 1000 (by decide) (by decide) (by decide) (by decide)).1
  · exact (c7_transition_table_guard.2.2 ⟨["alt_l"], ["cmd"]⟩
      ManagerState.init "cmd" 1000 (by decide) (by decide) (by decide) (by decide)).2

/-- Counterexample to C8 as stated: a too-slow second translate press at
t=1600 lands in WaitSecondKey and triggers a reset, which clears the
per-key down-time dictionary; a further down for the same key at t=1640 —
40 ms later, inside the 50 ms debounce window — is then processed as a fresh
press and moves the machine from Idle to WaitFirstRelease. -/
theorem c8_debounce_counterexample :
    (1640 - 1600 < debounceMs)
    ∧ (onPress ⟨["alt_l"], ["cmd"]⟩
        ((onRelease ⟨["alt_l"], ["cmd"]⟩
          (onPress ⟨["alt_l"], ["cmd"]⟩ ManagerState.init "cmd" 1000).1 "cmd" 1050).1)
        "cmd" 1600).1.lastKeydownTime = []
    ∧ (onPress ⟨["alt_l"], ["cmd"]⟩
        ((onRelease ⟨["alt_l"], ["cmd"]⟩
          (onPress ⟨["alt_l"], ["cmd"]⟩ ManagerState.init "cmd" 1000).1 "cmd" 1050).1)
        "cmd" 1600).1.fsm = HotkeyState.idle
    ∧ (onPress ⟨["alt_l"], ["cmd"]⟩
        (onPress ⟨["alt_l"], ["cmd"]⟩
          ((onRelease ⟨["alt_l"], ["cmd"]⟩
            (onPress ⟨["alt_l"], ["cmd"]⟩ ManagerState.init "cmd" 1000).1 "cmd" 1050).1)
          "cmd" 1600).1
        "cmd" 1640).1.fsm = HotkeyState.waitFirstRelease := by
  decide

/-- Claim C8 amended: a second down for the same key inside the debounce
window is ignored — it changes nothing but the event clock and triggers no
callback — provided the first down left its debounce record in place (a
first down that triggers a state reset clears the per-key down-time
dictionary, and a following down inside the window is then processed as a
fresh press). -/
theorem c8_debounce_amended (cfg : HotkeyConfig) (s : ManagerState)
    (k : String) (t1 t2 : Nat)
    (hrec : (onPress cfg s k t1).1.lastKeydownTime.lookup k = some t1)
    (hwin : t2 - t1 < debounceMs) :
    onPress cfg (onPress cfg s k t1).1 k t2
      = ({ (onPress cfg s k t1).1 with lastKeyEventTime := t2 }, []) := by
  have hmem : k ∈ (onPress cfg s k t1).1.pressedKeys := by
    rw [onPress_pressedKeys]
    exact mem_insertKey _ _
  set r1 := (onPress cfg s k t1).1 with hr1
  simp only [onPress]
  rw [insertKey_of_mem hmem]
  simp only [hrec, Option.getD_some]
  rw [if_pos hwin]

/-- Witness for the amended C8: a voice press at t=1000 (which keeps its
debounce record) followed by a repeat down at t=1030. -/
theorem c8_debounce_amended_witness :
    (onPress ⟨["alt_l"], ["cmd"]⟩ ManagerState.init "alt_l" 1000).1.lastKeydownTime.lookup "alt_l"
        = some 1000
    ∧ (1030 - 1000 < debounceMs)
    ∧ onPress ⟨["alt_l"], ["cmd"]⟩
        (onPress ⟨["alt_l"], ["cmd"]⟩ ManagerState.init "alt_l" 1000).1 "alt_l" 1030
      = ({ (onPress ⟨["alt_l"], ["cmd"]⟩ ManagerState.init "alt_l" 1000).1 with
           lastKeyEventTime := 1030 }, []) :=
  ⟨by decide, by decide,
   c8_debounce_amended ⟨["alt_l"], ["cmd"]⟩ ManagerState.init "alt_l" 1000 1030
     (by decide) (by decide)⟩

end FastVoice
